import Mathlib

/-!
Verification development for the MongoDB dashboard (src/MongoDB_dashboard.py).

The core of the program is two MongoDB aggregation pipelines
(calculate_seasons and calculate_professionals), CSV export
(export_data_to_csv), the Streamlit entry point (main) and the
connection helper (get_collection).  We shallowly embed the BSON value
universe, the records, the aggregation-stage semantics used by those
pipelines, and the Python-level post-processing (Counter population,
set union, sorted, list comprehensions).

Modelling notes, stated once here:
* BSON doubles are not modelled (no claim needs floating point); the
  value universe covers int32, int64, null, strings, arrays and
  documents, which suffices for every record shape the claims mention.
* MongoDB groups keys by value equality across numeric types; pymongo
  then decodes both int32 and int64 to a Python int.  We therefore
  normalise int64 keys to int32 representation (normKey) when keys are
  produced, so grouping and the Python-side Counter agree.
* Python sorted over the decoded keys is modelled by a fallible
  insertion sort: ints compare with ints, strings with strings, lists
  lexicographically; any other comparison raises TypeError, as CPython
  does for the key types that can actually reach these sorts.
-/

namespace MDb

/-- BSON-like values stored in a MongoDB document, as far as the
dashboard's pipelines inspect them. -/
inductive BVal : Type where
  | vint : Int → BVal
  | vlong : Int → BVal
  | vnull : BVal
  | vstr : String → BVal
  | varr : List BVal → BVal
  | vdoc : List (String × BVal) → BVal

mutual

/-- Structural boolean equality on BSON values. -/
def BVal.beq : BVal → BVal → Bool
  | .vint a, .vint b => a == b
  | .vlong a, .vlong b => a == b
  | .vnull, .vnull => true
  | .vstr a, .vstr b => a == b
  | .varr a, .varr b => BVal.beqArr a b
  | .vdoc a, .vdoc b => BVal.beqDoc a b
  | _, _ => false

/-- Structural boolean equality on BSON arrays. -/
def BVal.beqArr : List BVal → List BVal → Bool
  | [], [] => true
  | x :: xs, y :: ys => BVal.beq x y && BVal.beqArr xs ys
  | _, _ => false

/-- Structural boolean equality on BSON documents. -/
def BVal.beqDoc : List (String × BVal) → List (String × BVal) → Bool
  | [], [] => true
  | (k, x) :: xs, (l, y) :: ys => k == l && BVal.beq x y && BVal.beqDoc xs ys
  | _, _ => false

end

mutual

theorem BVal.beq_iff : ∀ (a b : BVal), BVal.beq a b = true ↔ a = b
  | .vint a, .vint b => by simp [BVal.beq]
  | .vlong a, .vlong b => by simp [BVal.beq]
  | .vnull, .vnull => by simp [BVal.beq]
  | .vstr a, .vstr b => by simp [BVal.beq]
  | .varr a, .varr b => by
      simp only [BVal.beq, BVal.beqArr_iff a b]
      constructor
      · intro h; rw [h]
      · intro h; cases h; rfl
  | .vdoc a, .vdoc b => by
      simp only [BVal.beq, BVal.beqDoc_iff a b]
      constructor
      · intro h; rw [h]
      · intro h; cases h; rfl
  | .vint _, .vlong _ => by simp [BVal.beq]
  | .vint _, .vnull => by simp [BVal.beq]
  | .vint _, .vstr _ => by simp [BVal.beq]
  | .vint _, .varr _ => by simp [BVal.beq]
  | .vint _, .vdoc _ => by simp [BVal.beq]
  | .vlong _, .vint _ => by simp [BVal.beq]
  | .vlong _, .vnull => by simp [BVal.beq]
  | .vlong _, .vstr _ => by simp [BVal.beq]
  | .vlong _, .varr _ => by simp [BVal.beq]
  | .vlong _, .vdoc _ => by simp [BVal.beq]
  | .vnull, .vint _ => by simp [BVal.beq]
  | .vnull, .vlong _ => by simp [BVal.beq]
  | .vnull, .vstr _ => by simp [BVal.beq]
  | .vnull, .varr _ => by simp [BVal.beq]
  | .vnull, .vdoc _ => by simp [BVal.beq]
  | .vstr _, .vint _ => by simp [BVal.beq]
  | .vstr _, .vlong _ => by simp [BVal.beq]
  | .vstr _, .vnull => by simp [BVal.beq]
  | .vstr _, .varr _ => by simp [BVal.beq]
  | .vstr _, .vdoc _ => by simp [BVal.beq]
  | .varr _, .vint _ => by simp [BVal.beq]
  | .varr _, .vlong _ => by simp [BVal.beq]
  | .varr _, .vnull => by simp [BVal.beq]
  | .varr _, .vstr _ => by simp [BVal.beq]
  | .varr _, .vdoc _ => by simp [BVal.beq]
  | .vdoc _, .vint _ => by simp [BVal.beq]
  | .vdoc _, .vlong _ => by simp [BVal.beq]
  | .vdoc _, .vnull => by simp [BVal.beq]
  | .vdoc _, .vstr _ => by simp [BVal.beq]
  | .vdoc _, .varr _ => by simp [BVal.beq]

theorem BVal.beqArr_iff : ∀ (xs ys : List BVal), BVal.beqArr xs ys = true ↔ xs = ys
  | [], [] => by simp [BVal.beqArr]
  | x :: xs, y :: ys => by
      simp only [BVal.beqArr, Bool.and_eq_true, BVal.beq_iff x y, BVal.beqArr_iff xs ys]
      constructor
      · rintro ⟨h1, h2⟩; rw [h1, h2]
      · intro h; cases h; exact ⟨rfl, rfl⟩
  | [], _ :: _ => by simp [BVal.beqArr]
  | _ :: _, [] => by simp [BVal.beqArr]

theorem BVal.beqDoc_iff : ∀ (xs ys : List (String × BVal)), BVal.beqDoc xs ys = true ↔ xs = ys
  | [], [] => by simp [BVal.beqDoc]
  | (k, x) :: xs, (l, y) :: ys => by
      simp only [BVal.beqDoc, Bool.and_eq_true, BVal.beq_iff x y, BVal.beqDoc_iff xs ys,
        beq_iff_eq]
      constructor
      · rintro ⟨⟨h0, h1⟩, h2⟩; rw [h0, h1, h2]
      · intro h; cases h; exact ⟨⟨rfl, rfl⟩, rfl⟩
  | [], _ :: _ => by simp [BVal.beqDoc]
  | _ :: _, [] => by simp [BVal.beqDoc]

end

instance : DecidableEq BVal := fun a b => decidable_of_iff _ (BVal.beq_iff a b)

deriving instance DecidableEq for Except

/-- A MongoDB document / Python dict: field name to value (unique keys). -/
abbrev Record := List (String × BVal)

/-- Python-level exceptions that the embedded code can raise. -/
inductive PyErr : Type where
  | operationFailure : String → PyErr
  | typeError : String → PyErr
  | nameError : String → PyErr
deriving DecidableEq

/-- Field lookup in a document (first binding wins, as in a dict). -/
def getField (r : Record) (k : String) : Option BVal :=
  (r.find? (fun p => p.1 = k)).map (fun p => p.2)

/-- The aggregation operator given by the string returned by the $type
operator on a present value. -/
def bsonType : BVal → String
  | .vint _ => "int"
  | .vlong _ => "long"
  | .vnull => "null"
  | .vstr _ => "string"
  | .varr _ => "array"
  | .vdoc _ => "object"

/-- $type through a field path: a missing field has type "missing". -/
def bsonTypeOpt : Option BVal → String
  | some v => bsonType v
  | none => "missing"

def isNumber : BVal → Bool
  | .vint _ => true
  | .vlong _ => true
  | _ => false

def numVal : BVal → Int
  | .vint n => n
  | .vlong n => n
  | _ => 0

/-- The query-language filter {"year": {"$ne": null}} used by both
pipelines in calculate_seasons: a document matches unless the year
field is missing, null, or an array containing null. -/
def matchYearNeNull (r : Record) : Bool :=
  match getField r "year" with
  | none => false
  | some BVal.vnull => false
  | some (BVal.varr xs) => !(xs.contains BVal.vnull)
  | some _ => true

/-- The first $project stage's expression for "number of seasons":
$cond [$or [$eq [$type, "null"], $ne [$type, "int"]], 1, field].
A missing field has $type "missing", so it also falls to the default 1;
an int-typed value (including zero or a negative) is kept. -/
def projNos (r : Record) : BVal :=
  let t := bsonTypeOpt (getField r "number of seasons")
  if t = "null" ∨ t ≠ "int" then BVal.vint 1
  else (getField r "number of seasons").getD BVal.vnull

/-- $add over two operands: null operands give null, numeric operands
add (the int32/int64 distinction of the sum does not matter to any
later stage, so the sum is represented as vint), and any other operand
raises, as the server does for non-numeric non-date types. -/
def addVals (a b : BVal) : Except PyErr BVal :=
  if a = BVal.vnull ∨ b = BVal.vnull then Except.ok BVal.vnull
  else if isNumber a ∧ isNumber b then Except.ok (BVal.vint (numVal a + numVal b))
  else Except.error (PyErr.operationFailure "$add only supports numeric or date types")

def int32Min : Int := -2147483648
def int32Max : Int := 2147483647

/-- $range [start, end] with the default step 1: both bounds must be
integers representable as 32-bit integers, otherwise the server raises;
an end not greater than the start yields the empty array. -/
def rangeVals (a b : BVal) : Except PyErr BVal :=
  if isNumber a ∧ isNumber b then
    let s := numVal a
    let e := numVal b
    if int32Min ≤ s ∧ s ≤ int32Max ∧ int32Min ≤ e ∧ e ≤ int32Max then
      Except.ok (BVal.varr ((List.range (e - s).toNat).map (fun (i : Nat) => BVal.vint (s + (i : Int)))))
    else Except.error (PyErr.operationFailure "$range requires values representable as 32-bit integers")
  else Except.error (PyErr.operationFailure "$range requires numeric starting and ending values")

/-- $unwind with default options: an array unwinds to its elements
(none for the empty array), null is dropped, and any other value passes
through as a single element. -/
def unwindVals : BVal → List BVal
  | .varr xs => xs
  | .vnull => []
  | v => [v]

/-- One matched document through the stages $project, $addFields
(end_range), the second $project (year_range) and $unwind of
pipeline_seasons.  The branch for end_range = null builds the literal
document {"end_range": {"$add": ["$year", 1]}}; it is unreachable
because the $match stage guarantees a non-null year and the projected
season count is always an int. -/
def seasonsYearRange (r : Record) : Except PyErr (List BVal) :=
  let year := (getField r "year").getD BVal.vnull
  let nos := projNos r
  (addVals year nos).bind (fun endRange =>
    if endRange = BVal.vnull then
      (addVals year (BVal.vint 1)).map (fun v => unwindVals (BVal.vdoc [("end_range", v)]))
    else
      (rangeVals year endRange).map unwindVals)

/-- MongoDB groups keys by value across the numeric types, and pymongo
decodes both int32 and int64 group keys to a Python int, so int64 keys
are normalised to the vint representation.  (Numeric values nested
inside array- or document-valued keys are not normalised; no claim
involves such keys.) -/
def normKey : BVal → BVal
  | .vlong n => .vint n
  | v => v

/-- $group with {"count": {"$sum": 1}}: one entry per distinct key,
holding the key's multiplicity.  The server emits the groups in an
unspecified order; every consumer sorts afterwards, so the dedup order
used here is immaterial. -/
def groupCount (ks : List BVal) : List (BVal × Nat) :=
  ks.dedup.map (fun k => (k, ks.count k))

/-- Python's Counter/dict lookup with default 0 (counter.get(k, 0);
Counter subscripting also defaults to 0 for an absent key). -/
def counterGet : List (BVal × Nat) → BVal → Nat
  | [], _ => 0
  | (k, n) :: c, q => if k = q then n else counterGet c q

/-- Sequential fallible map, modelling list(collection.aggregate(...)):
the cursor materialises results in order and the first server error
aborts the whole call with no partial output. -/
def mapExcept (f : α → Except PyErr β) : List α → Except PyErr (List β)
  | [] => Except.ok []
  | x :: xs => (f x).bind (fun y => (mapExcept f xs).map (fun ys => y :: ys))

/-- The documents surviving the $match stage of both pipelines. -/
def matchedRecords (records : List Record) : List Record :=
  records.filter matchYearNeNull

/-- The group key "$year" (a missing field groups under null). -/
def yearKey (r : Record) : BVal :=
  normKey ((getField r "year").getD BVal.vnull)

/-- pipeline_products of calculate_seasons: match, then group by year
counting documents; yields the Counter original_frequencies. -/
def productsPipeline (records : List Record) : List (BVal × Nat) :=
  groupCount ((matchedRecords records).map yearKey)

/-- pipeline_seasons of calculate_seasons: match, project the year
range per document, unwind, then group by the unwound year counting
documents; yields the Counter modified_frequencies.  Any per-document
server error aborts the whole aggregation, as list(cursor) does. -/
def seasonsPipeline (records : List Record) : Except PyErr (List (BVal × Nat)) :=
  (mapExcept seasonsYearRange (matchedRecords records)).map (fun rs =>
    groupCount ((rs.flatten).map normKey))

mutual

/-- Python's < on decoded BSON values: ints with ints, strings with
strings, lists lexicographically; other comparisons raise TypeError
(None and dicts are unorderable; no other key shapes reach a sort). -/
def pyLt : BVal → BVal → Except PyErr Bool
  | .vint a, .vint b => .ok (decide (a < b))
  | .vint a, .vlong b => .ok (decide (a < b))
  | .vlong a, .vint b => .ok (decide (a < b))
  | .vlong a, .vlong b => .ok (decide (a < b))
  | .vstr a, .vstr b => .ok (decide (a < b))
  | .varr a, .varr b => pyLtList a b
  | _, _ => .error (PyErr.typeError "unorderable types")

/-- Python's list comparison: skip equal prefixes, then compare the
first differing elements; a strict prefix is smaller. -/
def pyLtList : List BVal → List BVal → Except PyErr Bool
  | [], [] => .ok false
  | [], _ :: _ => .ok true
  | _ :: _, [] => .ok false
  | a :: as, b :: bs => if a = b then pyLtList as bs else pyLt a b

end

/-- Insert into a sorted list using Python's fallible comparison. -/
def pyInsert (x : BVal) : List BVal → Except PyErr (List BVal)
  | [] => .ok [x]
  | y :: ys =>
      (pyLt x y).bind (fun b =>
        if b then .ok (x :: y :: ys)
        else (pyInsert x ys).map (fun zs => y :: zs))

/-- Python's sorted(): produces the ascending reordering, raising
TypeError exactly when it compares unorderable elements. -/
def pySorted : List BVal → Except PyErr (List BVal)
  | [] => .ok []
  | x :: xs => (pySorted xs).bind (fun ys => pyInsert x ys)

/-- calculate_seasons: run both pipelines, populate the two Counters,
take sorted(set(original keys) | set(modified keys)), and read both
Counters back along that year list with default 0. -/
def calculateSeasons (records : List Record) :
    Except PyErr (List BVal × List Nat × List Nat) :=
  let orig := productsPipeline records
  (seasonsPipeline records).bind (fun modif =>
    (pySorted ((orig.map Prod.fst ++ modif.map Prod.fst).dedup)).map (fun years =>
      (years, years.map (counterGet orig), years.map (counterGet modif))))

/-- The per-field summand built into the sum_fields dict of
calculate_professionals: $cond [$isArray field, $size field, 0]. -/
def creditCond (r : Record) (k : String) : Nat :=
  match getField r k with
  | some (BVal.varr xs) => xs.length
  | _ => 0

/-- The per-document value of $add over sum_fields.values().  The
sum_fields dict collapses duplicate configured keys (modelled with
dedup; the dict keeps the first occurrence while dedup keeps the last,
which only permutes the summands).  An empty configuration adds
nothing. -/
def creditsOf (r : Record) (keys : List String) : Nat :=
  ((keys.dedup).map (creditCond r)).sum

/-- $group with {"total_credits": {"$sum": expr}}: one entry per
distinct key holding the sum of the per-document values.  Group order
is unspecified and everything downstream sorts. -/
def groupSum (pairs : List (BVal × Nat)) : List (BVal × Nat) :=
  (pairs.map Prod.fst).dedup.map (fun k =>
    (k, ((pairs.filter (fun p => p.1 = k)).map Prod.snd).sum))

/-- The aggregation of calculate_professionals: group all documents by
"$year" (a missing year groups under null) summing the credit fields.
The pipeline's $sort by _id is dropped here because the Python side
re-sorts the keys before producing its output. -/
def professionalsTotals (records : List Record) (keys : List String) :
    List (BVal × Nat) :=
  groupSum (records.map (fun r => (yearKey r, creditsOf r keys)))

/-- The Python loop populating credits_counter, which skips the null
group (if record["_id"] is not None). -/
def professionalsCounter (records : List Record) (keys : List String) :
    List (BVal × Nat) :=
  (professionalsTotals records keys).filter (fun p => p.1 != BVal.vnull)

/-- calculate_professionals: years = sorted(credits_counter.keys());
credits = [credits_counter[year] for year in years].  Only the credits
list is returned. -/
def calculateProfessionals (records : List Record) (keys : List String) :
    Except PyErr (List Nat) :=
  (pySorted ((professionalsCounter records keys).map Prod.fst)).map (fun years =>
    years.map (counterGet (professionalsCounter records keys)))

/-- The DataFrame built by export_data_to_csv; np.nan padding cells are
modelled as none. -/
structure CsvTable where
  year : List (Option BVal)
  totalSeries : List (Option Nat)
  newSeries : List (Option Nat)
  professionals : List (Option Nat)
deriving DecidableEq

/-- Pad a list on the right with the missing-value marker up to length
n (the lists are never truncated: n is the maximum length). -/
def padTo (n : Nat) (xs : List α) : List (Option α) :=
  xs.map some ++ List.replicate (n - xs.length) none

/-- export_data_to_csv: recompute both results, pad all four lists with
NaN to the maximum length and build the DataFrame.  Note the
destructuring years, total_series, new_series = calculate_seasons(...)
binds total_series to the second component (original_frequencies_list)
and new_series to the third (modified_frequencies_list); the columns
are filled from those names. -/
def exportDataToCsv (records : List Record) (keys : List String) :
    Except PyErr CsvTable :=
  (calculateSeasons records).bind (fun res =>
    (calculateProfessionals records keys).map (fun professionals =>
      let years := res.1
      let total_series := res.2.1
      let new_series := res.2.2
      let maxLength := max (max years.length total_series.length)
        (max new_series.length professionals.length)
      { year := padTo maxLength years
        totalSeries := padTo maxLength total_series
        newSeries := padTo maxLength new_series
        professionals := padTo maxLength professionals }))

/-- Names bound at module level in MongoDB_dashboard.py: the imports
and the five function definitions (plus main itself). -/
def moduleGlobals : List String :=
  ["st", "pymongo", "ConnectionFailure", "ServerSelectionTimeoutError",
   "OperationFailure", "InvalidURI", "MongoClient", "pd", "np", "plt", "go",
   "Counter", "get_collection", "read_keys_from_csv", "export_data_to_csv",
   "plot_data", "calculate_professionals", "calculate_seasons", "main"]

/-- The local variables of main: Python determines them syntactically
as the names assigned anywhere in the function body.  main assigns
st.session_state.collection but never a bare name collection. -/
def mainLocalNames : List String :=
  ["connection_string", "db_name", "collection_name", "keys_to_consider",
   "plot_type", "csv"]

/-- Name resolution inside main: locals, then module globals (the name
collection is also not a Python builtin). -/
def mainResolves (name : String) : Bool :=
  mainLocalNames.contains name || moduleGlobals.contains name

/-- The body of the export button branch of main (line 317): evaluating
the argument collection of export_data_to_csv(collection,
keys_to_consider) resolves that name first; an unresolvable name raises
NameError before the call happens.  Were the name bound, the branch
would export the session's collection. -/
def mainExportAction (sessionCollection : Option (List Record))
    (keys : List String) : Except PyErr CsvTable :=
  if mainResolves "collection" then
    exportDataToCsv (sessionCollection.getD []) keys
  else Except.error (PyErr.nameError "name collection is not defined")

/-- Exceptions that the calls inside get_collection's try block can
raise; every one of them is a subclass of Exception. -/
inductive MongoExc : Type where
  | invalidURI
  | connectionFailure
  | serverSelectionTimeout
  | operationFailure
  | otherExc (msg : String)
deriving DecidableEq

/-- One invocation's server behaviour: either some call in the try
block raises, or the server responds with its database listing, the
requested database's collection listing, and the collection itself. -/
inductive ServerBehavior : Type where
  | raises (e : MongoExc)
  | responds (dbNames : List String) (collNames : List String)
      (coll : List Record)

/-- The try block of get_collection (lines 13-30): verify the
connection, warn and return None when the database or the collection
does not exist, otherwise return the collection. -/
def getCollectionTryBody (sb : ServerBehavior) (dbName collName : String) :
    Except MongoExc (Option (List Record)) :=
  match sb with
  | .raises e => Except.error e
  | .responds dbNames collNames coll =>
      if dbName ∈ dbNames then
        if collName ∈ collNames then Except.ok (some coll)
        else Except.ok none
      else Except.ok none

/-- Which exceptions the five except clauses catch: the four named
pymongo errors, then except Exception, which catches every remaining
Exception subclass. -/
def getCollectionHandlerCatches : MongoExc → Bool
  | .invalidURI => true
  | .connectionFailure => true
  | .serverSelectionTimeout => true
  | .operationFailure => true
  | .otherExc _ => true

/-- get_collection: run the try block; a caught exception falls through
(after st.error, a pure display effect) to the final return None. -/
def get_collection (sb : ServerBehavior) (dbName collName : String) :
    Except MongoExc (Option (List Record)) :=
  match getCollectionTryBody sb dbName collName with
  | Except.ok v => Except.ok v
  | Except.error e =>
      if getCollectionHandlerCatches e then Except.ok none
      else Except.error e

/-- The record set of the spec's end-to-end scenario, with the season
count stored in the field the code actually reads ("number of
seasons"). -/
def endToEndRecords : List Record :=
  [[("year", BVal.vint 2010)],
   [("year", BVal.vint 2010), ("number of seasons", BVal.vint 3)],
   [("year", BVal.vint 2012), ("cast", BVal.varr [BVal.vint 1, BVal.vint 2])]]

/-- Records under which both functions provably return without raising:
the year is absent, null, or an int-typed value whose successor still
fits in 32 bits, and the season-count field is absent or not int-typed
(i.e. arbitrarily malformed), while every other field - in particular
every credit field - is arbitrary. -/
def yearSafe (r : Record) : Bool :=
  match getField r "year" with
  | none => true
  | some BVal.vnull => true
  | some (BVal.vint y) =>
      decide (int32Min ≤ y ∧ y + 1 ≤ int32Max) &&
        (bsonTypeOpt (getField r "number of seasons") != "int")
  | some _ => false

/-- The spec's credit-aggregation example record:
{year: 2000, cast: [a,b], writers: [c]}. -/
def creditRecord : Record :=
  [("year", BVal.vint 2000),
   ("cast", BVal.varr [BVal.vstr "a", BVal.vstr "b"]),
   ("writers", BVal.varr [BVal.vstr "c"])]

/-! ### Infrastructure lemmas -/

theorem counterGet_map_self (l : List BVal) (f : BVal → Nat) (k : BVal) :
    counterGet (l.map (fun x => (x, f x))) k = if k ∈ l then f k else 0 := by
  induction l with
  | nil => simp [counterGet]
  | cons a l ih =>
      by_cases h : a = k
      · subst h; simp [counterGet]
      · have hk2 : (k ∈ a :: l) ↔ k ∈ l := by
          constructor
          · intro hm
            rcases List.mem_cons.mp hm with h1 | h1
            · exact absurd h1.symm h
            · exact h1
          · intro hm; exact List.mem_cons_of_mem a hm
        simp only [List.map_cons, counterGet, if_neg h, ih, hk2]

theorem counterGet_groupCount (ks : List BVal) (k : BVal) :
    counterGet (groupCount ks) k = ks.count k := by
  unfold groupCount
  rw [counterGet_map_self]
  by_cases h : k ∈ ks
  · rw [if_pos ((List.mem_dedup).mpr h)]
  · rw [if_neg (fun hc => h ((List.mem_dedup).mp hc))]
    exact (List.count_eq_zero.mpr h).symm

theorem counterGet_groupSum (pairs : List (BVal × Nat)) (k : BVal) :
    counterGet (groupSum pairs) k =
      ((pairs.filter (fun p => p.1 = k)).map Prod.snd).sum := by
  unfold groupSum
  rw [counterGet_map_self]
  by_cases h : k ∈ pairs.map Prod.fst
  · rw [if_pos ((List.mem_dedup).mpr h)]
  · rw [if_neg (fun hc => h ((List.mem_dedup).mp hc))]
    have hnil : pairs.filter (fun p => p.1 = k) = [] := by
      rw [List.filter_eq_nil_iff]
      intro p hp hc
      exact h (List.mem_map.mpr ⟨p, hp, of_decide_eq_true hc⟩)
    rw [hnil]
    rfl

theorem mapExcept_ok_append {f : α → Except PyErr β} {l1 l2 : List α}
    {a b : List β} (h1 : mapExcept f l1 = Except.ok a)
    (h2 : mapExcept f l2 = Except.ok b) :
    mapExcept f (l1 ++ l2) = Except.ok (a ++ b) := by
  induction l1 generalizing a with
  | nil =>
      cases h1
      simpa using h2
  | cons x xs ih =>
      simp only [mapExcept] at h1 ⊢
      cases hfx : f x with
      | error e => rw [hfx] at h1; cases h1
      | ok y =>
          rw [hfx] at h1
          cases hrest : mapExcept f xs with
          | error e => rw [hrest] at h1; cases h1
          | ok ys =>
              rw [hrest] at h1
              cases h1
              rw [List.cons_append]
              simp only [mapExcept, hfx, Except.bind, Except.map, List.append_eq]
              rw [ih hrest]

theorem mapExcept_ok_forall {f : α → Except PyErr β} {l : List α} {out : List β}
    (h : mapExcept f l = Except.ok out) :
    ∀ x ∈ l, ∃ y, f x = Except.ok y := by
  induction l generalizing out with
  | nil => intro x hx; cases hx
  | cons a as ih =>
      intro x hx
      simp only [mapExcept] at h
      cases hfa : f a with
      | error e => rw [hfa] at h; cases h
      | ok y =>
          rw [hfa] at h
          cases hrest : mapExcept f as with
          | error e => rw [hrest] at h; cases h
          | ok ys =>
              rcases List.mem_cons.mp hx with h1 | h1
              · subst h1; exact ⟨y, hfa⟩
              · exact ih hrest x h1

theorem mapExcept_ok_rev {f : α → Except PyErr β} {l : List α} {out : List β}
    (h : mapExcept f l = Except.ok out) :
    ∀ b ∈ out, ∃ a ∈ l, f a = Except.ok b := by
  induction l generalizing out with
  | nil =>
      cases h
      intro b hb; cases hb
  | cons a as ih =>
      intro b hb
      simp only [mapExcept] at h
      cases hfa : f a with
      | error e => rw [hfa] at h; cases h
      | ok y =>
          rw [hfa] at h
          cases hrest : mapExcept f as with
          | error e => rw [hrest] at h; cases h
          | ok ys =>
              rw [hrest] at h
              cases h
              rcases List.mem_cons.mp hb with h1 | h1
              · subst h1; exact ⟨a, List.mem_cons_self a as, hfa⟩
              · rcases ih hrest b h1 with ⟨a2, ha2, hfa2⟩
                exact ⟨a2, List.mem_cons_of_mem a ha2, hfa2⟩

theorem mapExcept_ok_of_forall {f : α → Except PyErr β} {l : List α}
    (h : ∀ x ∈ l, ∃ y, f x = Except.ok y) :
    ∃ out, mapExcept f l = Except.ok out := by
  induction l with
  | nil => exact ⟨[], rfl⟩
  | cons a as ih =>
      rcases h a (List.mem_cons_self a as) with ⟨y, hy⟩
      rcases ih (fun x hx => h x (List.mem_cons_of_mem a hx)) with ⟨out, hout⟩
      exact ⟨y :: out, by simp [mapExcept, hy, hout, Except.bind, Except.map]⟩

theorem matchYearNeNull_of_vint {r : Record} {Y : Int}
    (hy : getField r "year" = some (BVal.vint Y)) :
    matchYearNeNull r = true := by
  simp [matchYearNeNull, hy]

theorem projNos_int {r : Record} {S : Int}
    (hs : getField r "number of seasons" = some (BVal.vint S)) :
    projNos r = BVal.vint S := by
  unfold projNos
  rw [hs]
  rfl

theorem projNos_default {r : Record}
    (ht : bsonTypeOpt (getField r "number of seasons") ≠ "int") :
    projNos r = BVal.vint 1 := by
  unfold projNos
  rw [if_pos (Or.inr ht)]

theorem projNos_vint (r : Record) : ∃ n, projNos r = BVal.vint n := by
  unfold projNos
  cases hf : getField r "number of seasons" with
  | none => exact ⟨1, rfl⟩
  | some v =>
      cases v with
      | vint n => exact ⟨n, rfl⟩
      | vlong n => exact ⟨1, rfl⟩
      | vnull => exact ⟨1, rfl⟩
      | vstr s => exact ⟨1, rfl⟩
      | varr xs => exact ⟨1, rfl⟩
      | vdoc d => exact ⟨1, rfl⟩

theorem addVals_int (a b : Int) :
    addVals (BVal.vint a) (BVal.vint b) = Except.ok (BVal.vint (a + b)) := by
  unfold addVals
  rw [if_neg (by simp), if_pos (by simp [isNumber])]
  rfl

theorem rangeVals_int {a b : Int}
    (h1 : int32Min ≤ a) (h2 : a ≤ int32Max) (h3 : int32Min ≤ b) (h4 : b ≤ int32Max) :
    rangeVals (BVal.vint a) (BVal.vint b) =
      Except.ok (BVal.varr
        ((List.range (b - a).toNat).map (fun (i : Nat) => BVal.vint (a + (i : Int))))) := by
  unfold rangeVals
  rw [if_pos (by simp [isNumber]), if_pos ⟨h1, h2, h3, h4⟩]
  rfl

theorem seasonsYearRange_eval {r : Record} {Y S : Int}
    (hy : getField r "year" = some (BVal.vint Y))
    (hnos : projNos r = BVal.vint S)
    (h1 : int32Min ≤ Y) (h2 : Y ≤ int32Max)
    (h3 : int32Min ≤ Y + S) (h4 : Y + S ≤ int32Max) :
    seasonsYearRange r =
      Except.ok ((List.range S.toNat).map (fun (i : Nat) => BVal.vint (Y + (i : Int)))) := by
  unfold seasonsYearRange
  rw [hy, hnos]
  simp only [Option.getD_some]
  rw [addVals_int]
  simp only [Except.bind]
  rw [if_neg (by simp)]
  rw [rangeVals_int h1 h2 h3 h4]
  simp only [Except.map, unwindVals]
  have harith : Y + S - Y = S := by ring
  rw [harith]

theorem count_rangeList (Y S y : Int) :
    ((List.range S.toNat).map (fun (i : Nat) => BVal.vint (Y + (i : Int)))).count (BVal.vint y) =
      if Y ≤ y ∧ y < Y + S then 1 else 0 := by
  have hinj : Function.Injective (fun i : Nat => BVal.vint (Y + (i : Int))) := by
    intro i j hij
    simp only [BVal.vint.injEq] at hij
    omega
  by_cases h : Y ≤ y ∧ y < Y + S
  · rw [if_pos h]
    have hmem :
        BVal.vint y ∈ (List.range S.toNat).map (fun (i : Nat) => BVal.vint (Y + (i : Int))) := by
      refine List.mem_map.mpr ⟨(y - Y).toNat, List.mem_range.mpr (by omega), ?_⟩
      simp only [BVal.vint.injEq]
      omega
    have hnd : ((List.range S.toNat).map (fun (i : Nat) => BVal.vint (Y + (i : Int)))).Nodup :=
      List.Nodup.map hinj (List.nodup_range _)
    exact List.count_eq_one_of_mem hnd hmem
  · rw [if_neg h]
    refine List.count_eq_zero_of_not_mem ?_
    intro hmem
    rcases List.mem_map.mp hmem with ⟨i, hi, hEq⟩
    simp only [BVal.vint.injEq] at hEq
    have := List.mem_range.mp hi
    omega

theorem addVals_num {a b : BVal} (ha0 : a ≠ BVal.vnull) (hb0 : b ≠ BVal.vnull)
    (ha : isNumber a = true) (hb : isNumber b = true) :
    addVals a b = Except.ok (BVal.vint (numVal a + numVal b)) := by
  unfold addVals
  rw [if_neg (by rintro (h | h) <;> [exact ha0 h; exact hb0 h]), if_pos ⟨ha, hb⟩]

theorem addVals_err {a b : BVal} (ha0 : a ≠ BVal.vnull) (hb0 : b ≠ BVal.vnull)
    (hab : ¬(isNumber a = true ∧ isNumber b = true)) :
    addVals a b =
      Except.error (PyErr.operationFailure "$add only supports numeric or date types") := by
  unfold addVals
  rw [if_neg (by rintro (h | h) <;> [exact ha0 h; exact hb0 h]), if_neg hab]

theorem rangeVals_num_ok {a b : BVal} (ha : isNumber a = true) (hb : isNumber b = true)
    (hbnd : int32Min ≤ numVal a ∧ numVal a ≤ int32Max ∧
      int32Min ≤ numVal b ∧ numVal b ≤ int32Max) :
    rangeVals a b =
      Except.ok (BVal.varr
        ((List.range (numVal b - numVal a).toNat).map
          (fun (i : Nat) => BVal.vint (numVal a + (i : Int))))) := by
  unfold rangeVals
  rw [if_pos ⟨ha, hb⟩, if_pos hbnd]

theorem rangeVals_num_oob {a b : BVal} (ha : isNumber a = true) (hb : isNumber b = true)
    (hbnd : ¬(int32Min ≤ numVal a ∧ numVal a ≤ int32Max ∧
      int32Min ≤ numVal b ∧ numVal b ≤ int32Max)) :
    rangeVals a b =
      Except.error
        (PyErr.operationFailure "$range requires values representable as 32-bit integers") := by
  unfold rangeVals
  rw [if_pos ⟨ha, hb⟩, if_neg hbnd]

/-- A record that passed the $match and for which the seasons pipeline
stages succeeded has a numeric year (so its group key in
pipeline_products is an int) and all its unwound range entries are
ints. -/
theorem seasonsYearRange_ok_shape {r : Record} {l : List BVal}
    (hm : matchYearNeNull r = true) (h : seasonsYearRange r = Except.ok l) :
    (∃ Y : Int, yearKey r = BVal.vint Y) ∧ ∀ v ∈ l, ∃ n : Int, v = BVal.vint n := by
  rcases projNos_vint r with ⟨S, hS⟩
  unfold seasonsYearRange at h
  rw [hS] at h
  unfold yearKey
  cases hf : getField r "year" with
  | none => simp [matchYearNeNull, hf] at hm
  | some v =>
      rw [hf] at h
      simp only [Option.getD_some] at h
      cases v with
      | vnull => simp [matchYearNeNull, hf] at hm
      | vint Y =>
          refine ⟨⟨Y, rfl⟩, ?_⟩
          rw [addVals_num (by simp) (by simp) (by simp [isNumber]) (by simp [isNumber])] at h
          simp only [Except.bind] at h
          rw [if_neg (by simp)] at h
          by_cases hbnd : int32Min ≤ numVal (BVal.vint Y) ∧ numVal (BVal.vint Y) ≤ int32Max ∧
              int32Min ≤ numVal (BVal.vint (numVal (BVal.vint Y) + numVal (BVal.vint S))) ∧
              numVal (BVal.vint (numVal (BVal.vint Y) + numVal (BVal.vint S))) ≤ int32Max
          · rw [rangeVals_num_ok (by simp [isNumber]) (by simp [isNumber]) hbnd] at h
            simp only [Except.map, unwindVals] at h
            cases h
            intro v hv
            rcases List.mem_map.mp hv with ⟨i, _, hEq⟩
            exact ⟨numVal (BVal.vint Y) + i, hEq.symm⟩
          · rw [rangeVals_num_oob (by simp [isNumber]) (by simp [isNumber]) hbnd] at h
            simp only [Except.map] at h
            exact Except.noConfusion h
      | vlong Y =>
          refine ⟨⟨Y, rfl⟩, ?_⟩
          rw [addVals_num (by simp) (by simp) (by simp [isNumber]) (by simp [isNumber])] at h
          simp only [Except.bind] at h
          rw [if_neg (by simp)] at h
          by_cases hbnd : int32Min ≤ numVal (BVal.vlong Y) ∧ numVal (BVal.vlong Y) ≤ int32Max ∧
              int32Min ≤ numVal (BVal.vint (numVal (BVal.vlong Y) + numVal (BVal.vint S))) ∧
              numVal (BVal.vint (numVal (BVal.vlong Y) + numVal (BVal.vint S))) ≤ int32Max
          · rw [rangeVals_num_ok (by simp [isNumber]) (by simp [isNumber]) hbnd] at h
            simp only [Except.map, unwindVals] at h
            cases h
            intro v hv
            rcases List.mem_map.mp hv with ⟨i, _, hEq⟩
            exact ⟨numVal (BVal.vlong Y) + i, hEq.symm⟩
          · rw [rangeVals_num_oob (by simp [isNumber]) (by simp [isNumber]) hbnd] at h
            simp only [Except.map] at h
            exact Except.noConfusion h
      | vstr s =>
          rw [addVals_err (by simp) (by simp) (by simp [isNumber])] at h
          simp only [Except.bind] at h
          exact Except.noConfusion h
      | varr xs =>
          rw [addVals_err (by simp) (by simp) (by simp [isNumber])] at h
          simp only [Except.bind] at h
          exact Except.noConfusion h
      | vdoc d =>
          rw [addVals_err (by simp) (by simp) (by simp [isNumber])] at h
          simp only [Except.bind] at h
          exact Except.noConfusion h

/-- Recogniser for int-valued keys. -/
def isVintB : BVal → Bool
  | .vint _ => true
  | _ => false

/-- The strict ascending order in which int keys are emitted. -/
def bvalLt : BVal → BVal → Bool
  | .vint a, .vint b => decide (a < b)
  | _, _ => false

theorem pyInsert_int_ok (a : Int) :
    ∀ (ys : List BVal), (∀ y ∈ ys, isVintB y = true) →
      ys.Pairwise (fun u v => bvalLt u v = true) →
      BVal.vint a ∉ ys →
      ∃ zs, pyInsert (BVal.vint a) ys = Except.ok zs ∧
        zs.Perm (BVal.vint a :: ys) ∧
        zs.Pairwise (fun u v => bvalLt u v = true) := by
  intro ys
  induction ys with
  | nil =>
      intro _ _ _
      exact ⟨[BVal.vint a], rfl, List.Perm.refl _, by simp⟩
  | cons y ys2 ih =>
      intro hall hpw hnm
      rcases hall y (List.mem_cons_self y ys2) with hy
      cases y with
      | vint b =>
          by_cases hab : a < b
          · refine ⟨BVal.vint a :: BVal.vint b :: ys2, ?_, List.Perm.refl _, ?_⟩
            · simp [pyInsert, pyLt, Except.bind, hab]
            · refine List.Pairwise.cons ?_ hpw
              intro z hz
              rcases List.mem_cons.mp hz with h1 | h1
              · subst h1; simp [bvalLt, hab]
              · have hz2 := hall z (List.mem_cons_of_mem _ h1)
                have hbz := (List.pairwise_cons.mp hpw).1 z h1
                cases z with
                | vint c =>
                    simp only [bvalLt, decide_eq_true_eq] at hbz ⊢
                    omega
                | vlong c => simp [isVintB] at hz2
                | vnull => simp [isVintB] at hz2
                | vstr s => simp [isVintB] at hz2
                | varr xs => simp [isVintB] at hz2
                | vdoc d => simp [isVintB] at hz2
          · have hne : a ≠ b := by
              intro hEq
              exact hnm (by rw [hEq]; exact List.mem_cons_self _ _)
            rcases ih (fun z hz => hall z (List.mem_cons_of_mem _ hz))
                (List.pairwise_cons.mp hpw).2
                (fun hc => hnm (List.mem_cons_of_mem _ hc)) with
              ⟨zs2, hins, hperm, hpw2⟩
            refine ⟨BVal.vint b :: zs2, ?_, ?_, ?_⟩
            · simp [pyInsert, pyLt, Except.bind, hab, hins, Except.map]
            · exact (List.Perm.cons _ hperm).trans (List.Perm.swap _ _ _)
            · refine List.Pairwise.cons ?_ hpw2
              intro z hz
              have hz3 : z ∈ BVal.vint a :: ys2 := hperm.mem_iff.mp hz
              rcases List.mem_cons.mp hz3 with h1 | h1
              · subst h1
                simp only [bvalLt, decide_eq_true_eq]
                omega
              · exact (List.pairwise_cons.mp hpw).1 z h1
      | vlong c => simp [isVintB] at hy
      | vnull => simp [isVintB] at hy
      | vstr s => simp [isVintB] at hy
      | varr xs => simp [isVintB] at hy
      | vdoc d => simp [isVintB] at hy

theorem pySorted_int_ok :
    ∀ (l : List BVal), (∀ x ∈ l, isVintB x = true) → l.Nodup →
      ∃ out, pySorted l = Except.ok out ∧ out.Perm l ∧
        out.Pairwise (fun u v => bvalLt u v = true) := by
  intro l
  induction l with
  | nil => intro _ _; exact ⟨[], rfl, List.Perm.refl _, by simp⟩
  | cons x xs ih =>
      intro hall hnd
      rcases ih (fun z hz => hall z (List.mem_cons_of_mem _ hz))
        (List.Nodup.of_cons hnd) with ⟨ys, hys, hperm, hpw⟩
      have hx := hall x (List.mem_cons_self x xs)
      cases x with
      | vint a =>
          have hnm : BVal.vint a ∉ ys := by
            intro hc
            exact (List.nodup_cons.mp hnd).1 (hperm.mem_iff.mp hc)
          rcases pyInsert_int_ok a ys
              (fun z hz => hall z (List.mem_cons_of_mem _ (hperm.mem_iff.mp hz)))
              hpw hnm with ⟨zs, hins, hperm2, hpw2⟩
          refine ⟨zs, ?_, ?_, hpw2⟩
          · simp [pySorted, hys, Except.bind, hins]
          · exact hperm2.trans (List.Perm.cons _ hperm)
      | vlong c => simp [isVintB] at hx
      | vnull => simp [isVintB] at hx
      | vstr s => simp [isVintB] at hx
      | varr xs2 => simp [isVintB] at hx
      | vdoc d => simp [isVintB] at hx

theorem matchYearNeNull_of_absent {r : Record}
    (hy : getField r "year" = none ∨ getField r "year" = some BVal.vnull) :
    matchYearNeNull r = false := by
  unfold matchYearNeNull
  rcases hy with h | h <;> rw [h]

theorem yearKey_of_absent {r : Record}
    (hy : getField r "year" = none ∨ getField r "year" = some BVal.vnull) :
    yearKey r = BVal.vnull := by
  unfold yearKey
  rcases hy with h | h <;> rw [h] <;> rfl

theorem matchedRecords_append_unmatched (rs : List Record) (r : Record)
    (hm : matchYearNeNull r = false) :
    matchedRecords (rs ++ [r]) = matchedRecords rs := by
  unfold matchedRecords
  rw [List.filter_append]
  simp [hm]

theorem matchedRecords_append_matched (rs : List Record) (r : Record)
    (hm : matchYearNeNull r = true) :
    matchedRecords (rs ++ [r]) = matchedRecords rs ++ [r] := by
  unfold matchedRecords
  rw [List.filter_append]
  simp [hm]

theorem filter_dedup_append_null (ks : List BVal) :
    ((ks ++ [BVal.vnull]).dedup.filter (fun k => k != BVal.vnull)) =
      (ks.dedup.filter (fun k => k != BVal.vnull)) := by
  induction ks with
  | nil => rfl
  | cons a ks ih =>
      rw [List.cons_append]
      by_cases ha2 : a ∈ ks
      · rw [List.dedup_cons_of_mem (List.mem_append_left _ ha2),
          List.dedup_cons_of_mem ha2, ih]
      · by_cases han : a = BVal.vnull
        · subst han
          rw [List.dedup_cons_of_mem
              (List.mem_append_right _ (List.mem_singleton_self _)),
            List.dedup_cons_of_not_mem ha2, ih, List.filter_cons]
          simp
        · have hnm : a ∉ ks ++ [BVal.vnull] := by
            intro hc
            rcases List.mem_append.mp hc with h | h
            · exact ha2 h
            · exact han (by simpa using h)
          rw [List.dedup_cons_of_not_mem hnm, List.dedup_cons_of_not_mem ha2,
            List.filter_cons, List.filter_cons, ih]

theorem filter_map_key (ks : List BVal) (g : BVal → BVal × Nat)
    (hg : ∀ k, (g k).1 = k) :
    ((ks.map g).filter (fun p => p.1 != BVal.vnull)) =
      ((ks.filter (fun k => k != BVal.vnull)).map g) := by
  induction ks with
  | nil => rfl
  | cons a ks ih =>
      simp only [List.map_cons, List.filter_cons, hg a, ih]
      by_cases ha : a = BVal.vnull
      · subst ha; simp
      · simp [ha]

theorem counterGet_filter_ne_null (c : List (BVal × Nat)) (k : BVal)
    (hk : k ≠ BVal.vnull) :
    counterGet (c.filter (fun p => p.1 != BVal.vnull)) k = counterGet c k := by
  induction c with
  | nil => rfl
  | cons p c ih =>
      rcases p with ⟨k2, n⟩
      by_cases h2 : k2 = BVal.vnull
      · subst h2
        have hkne : ¬(BVal.vnull = k) := fun hEq => hk hEq.symm
        simp [List.filter_cons, counterGet, ih, hkne]
      · simp [List.filter_cons, counterGet, ih, h2]

theorem professionalsCounter_append_null (rs : List Record) (r : Record)
    (keys : List String) (hk : yearKey r = BVal.vnull) :
    professionalsCounter (rs ++ [r]) keys = professionalsCounter rs keys := by
  unfold professionalsCounter professionalsTotals groupSum
  rw [List.map_append]
  simp only [List.map_cons, List.map_nil, hk]
  rw [List.map_append]
  simp only [List.map_cons, List.map_nil]
  rw [filter_map_key _ _ (fun k => rfl), filter_map_key _ _ (fun k => rfl),
    filter_dedup_append_null]
  refine List.map_congr_left ?_
  intro k hkmem
  have hkne : (k != BVal.vnull) = true := (List.mem_filter.mp hkmem).2
  have hkne2 : BVal.vnull ≠ k := by
    intro hEq
    rw [← hEq] at hkne
    simp at hkne
  simp [List.filter_append, hkne2]

theorem professionalsTotals_append (rs : List Record) (r : Record)
    (keys : List String) (k : BVal) :
    counterGet (professionalsTotals (rs ++ [r]) keys) k =
      counterGet (professionalsTotals rs keys) k +
        (if yearKey r = k then creditsOf r keys else 0) := by
  unfold professionalsTotals
  rw [List.map_append]
  simp only [List.map_cons, List.map_nil]
  rw [counterGet_groupSum, counterGet_groupSum, List.filter_append]
  by_cases h : yearKey r = k
  · rw [if_pos h]
    simp [List.filter_cons, h, List.sum_append]
  · rw [if_neg h]
    simp [List.filter_cons, h, List.sum_append]

theorem mapExcept_singleton {f : α → Except PyErr β} {x : α} {y : β}
    (h : f x = Except.ok y) : mapExcept f [x] = Except.ok [y] := by
  simp [mapExcept, h, Except.bind, Except.map]

theorem seasonsPipeline_append_matched (pre : List Record) (r : Record)
    (hm : matchYearNeNull r = true) {m : List (BVal × Nat)}
    (hpre : seasonsPipeline pre = Except.ok m) {l : List BVal}
    (hr : seasonsYearRange r = Except.ok l) :
    ∃ m2, seasonsPipeline (pre ++ [r]) = Except.ok m2 ∧
      ∀ k, counterGet m2 k = counterGet m k + (l.map normKey).count k := by
  unfold seasonsPipeline at hpre ⊢
  cases hrs : mapExcept seasonsYearRange (matchedRecords pre) with
  | error e => rw [hrs] at hpre; exact Except.noConfusion hpre
  | ok rs0 =>
      rw [hrs] at hpre
      simp only [Except.map] at hpre
      have hm0 : m = groupCount ((rs0.flatten).map normKey) :=
        (Except.ok.injEq _ _).mp hpre.symm
      rw [matchedRecords_append_matched _ _ hm,
        mapExcept_ok_append hrs (mapExcept_singleton hr)]
      refine ⟨groupCount (((rs0 ++ [l]).flatten).map normKey), rfl, ?_⟩
      intro k
      rw [hm0, counterGet_groupCount, counterGet_groupCount,
        List.flatten_append, List.map_append, List.count_append]
      simp

theorem productsPipeline_append (pre : List Record) (r : Record)
    (hm : matchYearNeNull r = true) (k : BVal) :
    counterGet (productsPipeline (pre ++ [r])) k =
      counterGet (productsPipeline pre) k + (if yearKey r = k then 1 else 0) := by
  unfold productsPipeline
  rw [matchedRecords_append_matched _ _ hm, List.map_append]
  simp only [List.map_cons, List.map_nil]
  rw [counterGet_groupCount, counterGet_groupCount, List.count_append]
  congr 1
  by_cases h : yearKey r = k
  · simp [h, List.count_cons]
  · simp [h, List.count_cons]

theorem map_normKey_rangeList (Y : Int) (n : Nat) :
    (((List.range n).map (fun (i : Nat) => BVal.vint (Y + (i : Int)))).map normKey) =
      ((List.range n).map (fun (i : Nat) => BVal.vint (Y + (i : Int)))) := by
  rw [List.map_map]
  rfl

theorem groupCount_keys (X : List BVal) : (groupCount X).map Prod.fst = X.dedup := by
  unfold groupCount
  rw [List.map_map]
  have hc : (Prod.fst ∘ fun k : BVal => (k, X.count k)) = id := rfl
  rw [hc, List.map_id]

theorem groupSum_keys (P : List (BVal × Nat)) :
    (groupSum P).map Prod.fst = (P.map Prod.fst).dedup := by
  unfold groupSum
  rw [List.map_map]
  have hc : (Prod.fst ∘ fun k : BVal =>
      (k, ((P.filter (fun p => p.1 = k)).map Prod.snd).sum)) = id := rfl
  rw [hc, List.map_id]

theorem yearKey_safe {r : Record} (h : yearSafe r = true) :
    yearKey r = BVal.vnull ∨ ∃ n : Int, yearKey r = BVal.vint n := by
  unfold yearSafe at h
  unfold yearKey
  cases hf : getField r "year" with
  | none => exact Or.inl rfl
  | some v =>
      rw [hf] at h
      cases v with
      | vnull => exact Or.inl rfl
      | vint y => exact Or.inr ⟨y, rfl⟩
      | vlong n => exact Bool.noConfusion h
      | vstr s => exact Bool.noConfusion h
      | varr xs => exact Bool.noConfusion h
      | vdoc d => exact Bool.noConfusion h

/-- When the seasons pipeline succeeds, every key of its result and
every key of pipeline_products is an int. -/
theorem seasonsPipeline_keys_vint {records : List Record} {m : List (BVal × Nat)}
    (h : seasonsPipeline records = Except.ok m) :
    (∀ k ∈ m.map Prod.fst, ∃ n : Int, k = BVal.vint n) ∧
    (∀ k ∈ (productsPipeline records).map Prod.fst, ∃ n : Int, k = BVal.vint n) := by
  unfold seasonsPipeline at h
  cases hrs : mapExcept seasonsYearRange (matchedRecords records) with
  | error e => rw [hrs] at h; exact Except.noConfusion h
  | ok rs0 =>
      rw [hrs] at h
      simp only [Except.map] at h
      have hm0 : m = groupCount ((rs0.flatten).map normKey) :=
        (Except.ok.injEq _ _).mp h.symm
      constructor
      · intro k hk
        rw [hm0, groupCount_keys] at hk
        have hk2 := List.mem_dedup.mp hk
        rcases List.mem_map.mp hk2 with ⟨v, hv, hvk⟩
        rcases List.mem_flatten.mp hv with ⟨li, hli, hvli⟩
        rcases mapExcept_ok_rev hrs li hli with ⟨r, hr, hok⟩
        have hmr : matchYearNeNull r = true := (List.mem_filter.mp hr).2
        rcases (seasonsYearRange_ok_shape hmr hok).2 v hvli with ⟨n, hn⟩
        exact ⟨n, by rw [← hvk, hn]; rfl⟩
      · intro k hk
        unfold productsPipeline at hk
        rw [groupCount_keys] at hk
        have hk2 := List.mem_dedup.mp hk
        rcases List.mem_map.mp hk2 with ⟨r, hr, hvk⟩
        have hmr : matchYearNeNull r = true := (List.mem_filter.mp hr).2
        rcases mapExcept_ok_forall hrs r hr with ⟨li, hok⟩
        rcases (seasonsYearRange_ok_shape hmr hok).1 with ⟨n, hn⟩
        exact ⟨n, by rw [← hvk, hn]⟩

theorem seasonsYearRange_safe_ok {r : Record} {y : Int}
    (hy : getField r "year" = some (BVal.vint y))
    (h1 : int32Min ≤ y) (h2 : y + 1 ≤ int32Max)
    (hns : bsonTypeOpt (getField r "number of seasons") ≠ "int") :
    seasonsYearRange r = Except.ok [BVal.vint y] := by
  rw [seasonsYearRange_eval hy (projNos_default hns) h1 (by omega) (by omega) (by omega)]
  simp [Int.toNat_one, List.range_succ]

theorem seasonsPipeline_safe_ok (records : List Record)
    (h : ∀ r ∈ records, yearSafe r = true) :
    ∃ m, seasonsPipeline records = Except.ok m := by
  have hall : ∀ r ∈ matchedRecords records, ∃ l, seasonsYearRange r = Except.ok l := by
    intro r hr
    have hmem := List.mem_filter.mp hr
    have hsafe := h r hmem.1
    have hmatch := hmem.2
    unfold yearSafe at hsafe
    cases hf : getField r "year" with
    | none =>
        rw [matchYearNeNull_of_absent (Or.inl hf)] at hmatch
        exact Bool.noConfusion hmatch
    | some v =>
        rw [hf] at hsafe
        cases v with
        | vnull =>
            rw [matchYearNeNull_of_absent (Or.inr hf)] at hmatch
            exact Bool.noConfusion hmatch
        | vint y =>
            rcases Bool.and_eq_true_iff.mp hsafe with ⟨hb, hns⟩
            have hbnd := of_decide_eq_true hb
            exact ⟨[BVal.vint y],
              seasonsYearRange_safe_ok hf hbnd.1 hbnd.2 (bne_iff_ne.mp hns)⟩
        | vlong n => exact Bool.noConfusion hsafe
        | vstr s => exact Bool.noConfusion hsafe
        | varr xs => exact Bool.noConfusion hsafe
        | vdoc d => exact Bool.noConfusion hsafe
  rcases mapExcept_ok_of_forall hall with ⟨rs0, hrs⟩
  exact ⟨groupCount ((rs0.flatten).map normKey), by
    unfold seasonsPipeline
    rw [hrs]
    rfl⟩

theorem professionalsCounter_keys_nodup (records : List Record) (keys : List String) :
    ((professionalsCounter records keys).map Prod.fst).Nodup := by
  unfold professionalsCounter
  have hsub : (((professionalsTotals records keys).filter
        (fun p => p.1 != BVal.vnull)).map Prod.fst).Sublist
      ((professionalsTotals records keys).map Prod.fst) :=
    List.Sublist.map _ (List.filter_sublist _)
  refine List.Nodup.sublist hsub ?_
  unfold professionalsTotals
  rw [groupSum_keys]
  exact List.nodup_dedup _

theorem professionalsCounter_keys_vint (records : List Record) (keys : List String)
    (h : ∀ r ∈ records, yearSafe r = true) :
    ∀ k ∈ (professionalsCounter records keys).map Prod.fst,
      ∃ n : Int, k = BVal.vint n := by
  intro k hk
  rcases List.mem_map.mp hk with ⟨p, hp, hpk⟩
  have hp2 := List.mem_filter.mp hp
  have hkn : (p.1 != BVal.vnull) = true := hp2.2
  have hpmem : p.1 ∈ (professionalsTotals records keys).map Prod.fst :=
    List.mem_map.mpr ⟨p, hp2.1, rfl⟩
  unfold professionalsTotals at hpmem
  rw [groupSum_keys] at hpmem
  have h2 := List.mem_dedup.mp hpmem
  rw [List.map_map] at h2
  rcases List.mem_map.mp h2 with ⟨r, hr, hrk⟩
  have hyk : yearKey r = p.1 := hrk
  rcases yearKey_safe (h r hr) with hnull | ⟨n, hn⟩
  · rw [hyk] at hnull
    rw [hnull] at hkn
    simp at hkn
  · exact ⟨n, by rw [← hpk, ← hyk]; exact hn⟩

theorem calculateProfessionals_safe_ok (records : List Record) (keys : List String)
    (h : ∀ r ∈ records, yearSafe r = true) :
    ∃ cs, calculateProfessionals records keys = Except.ok cs := by
  have hvint : ∀ x ∈ (professionalsCounter records keys).map Prod.fst,
      isVintB x = true := by
    intro x hx
    rcases professionalsCounter_keys_vint records keys h x hx with ⟨n, hn⟩
    rw [hn]; rfl
  rcases pySorted_int_ok _ hvint (professionalsCounter_keys_nodup records keys) with
    ⟨out, hout, _, _⟩
  refine ⟨out.map (counterGet (professionalsCounter records keys)), ?_⟩
  unfold calculateProfessionals
  rw [hout]
  rfl

theorem calculateSeasons_safe_ok (records : List Record)
    (h : ∀ r ∈ records, yearSafe r = true) :
    ∃ out, calculateSeasons records = Except.ok out := by
  rcases seasonsPipeline_safe_ok records h with ⟨m, hm⟩
  have hkeys := seasonsPipeline_keys_vint hm
  have hvint : ∀ x ∈ ((productsPipeline records).map Prod.fst ++ m.map Prod.fst).dedup,
      isVintB x = true := by
    intro x hx
    have hx2 := List.mem_dedup.mp hx
    rcases List.mem_append.mp hx2 with h1 | h1
    · rcases hkeys.2 x h1 with ⟨n, hn⟩; rw [hn]; rfl
    · rcases hkeys.1 x h1 with ⟨n, hn⟩; rw [hn]; rfl
  rcases pySorted_int_ok _ hvint (List.nodup_dedup _) with ⟨ys, hys, _, _⟩
  refine ⟨(ys, ys.map (counterGet (productsPipeline records)), ys.map (counterGet m)), ?_⟩
  unfold calculateSeasons
  rw [hm]
  simp only [Except.bind]
  rw [hys]
  rfl

theorem calculateSeasons_ok_inv {records : List Record} {ys : List BVal}
    {os ms : List Nat}
    (h : calculateSeasons records = Except.ok (ys, os, ms)) :
    ∃ m, seasonsPipeline records = Except.ok m ∧
      pySorted (((productsPipeline records).map Prod.fst ++ m.map Prod.fst).dedup) =
        Except.ok ys ∧
      os = ys.map (counterGet (productsPipeline records)) ∧
      ms = ys.map (counterGet m) := by
  unfold calculateSeasons at h
  cases hm : seasonsPipeline records with
  | error e => rw [hm] at h; exact Except.noConfusion h
  | ok m =>
      rw [hm] at h
      simp only [Except.bind] at h
      cases hsort : pySorted
          (((productsPipeline records).map Prod.fst ++ m.map Prod.fst).dedup) with
      | error e => rw [hsort] at h; exact Except.noConfusion h
      | ok ys2 =>
          rw [hsort] at h
          simp only [Except.map] at h
          have h0 := (Except.ok.injEq _ _).mp h
          simp only [Prod.mk.injEq] at h0
          obtain ⟨h1, h2, h3⟩ := h0
          subst h1
          exact ⟨m, rfl, hsort, h2.symm, h3.symm⟩

/-! ### Claims -/

/-- C1, counterexample: on the end-to-end scenario the code returns
presence counts [2,1,2] (the record with 3 seasons also covers 2012,
where a new series starts too) and a credit list [0,2] of length 2, not
the claimed presence [2,1,1] and credits [0,0,2].  calculate_seasons
returns (years, new-series counts, presence counts) in that order. -/
theorem c1_counterexample :
    calculateSeasons endToEndRecords =
      Except.ok ([BVal.vint 2010, BVal.vint 2011, BVal.vint 2012], [2, 0, 1], [2, 1, 2]) ∧
    calculateSeasons endToEndRecords ≠
      Except.ok ([BVal.vint 2010, BVal.vint 2011, BVal.vint 2012], [2, 0, 1], [2, 1, 1]) ∧
    calculateProfessionals endToEndRecords ["cast"] = Except.ok [0, 2] ∧
    calculateProfessionals endToEndRecords ["cast"] ≠ Except.ok [0, 0, 2] := by
  decide

/-- C1, amended: running the pipeline on the scenario records with
credit fields ["cast"] yields years [2010,2011,2012], new-series counts
[2,0,1], presence counts [2,1,2], and a credit list [0,2] aligned to the
credit map's own years [2010,2012] rather than to the full year list. -/
theorem c1_theorem :
    calculateSeasons endToEndRecords =
      Except.ok ([BVal.vint 2010, BVal.vint 2011, BVal.vint 2012], [2, 0, 1], [2, 1, 2]) ∧
    calculateProfessionals endToEndRecords ["cast"] = Except.ok [0, 2] := by
  decide

/-- C2, counterexample: a record with an int-typed season count of 0 is
kept by the projection (only non-int types default to 1), so its $range
is empty and it contributes 0, not 1, to the presence count of its own
start year. -/
theorem c2_counterexample :
    calculateSeasons [[("year", BVal.vint 2010), ("number of seasons", BVal.vint 0)]] =
      Except.ok ([BVal.vint 2010], [1], [0]) ∧
    calculateSeasons [[("year", BVal.vint 2010), ("number of seasons", BVal.vint 0)]] ≠
      Except.ok ([BVal.vint 2010], [1], [1]) := by
  decide

/-- C2, amended: the effective season count equals the record's season
count field whenever that field is int-typed - including zero and
negative values - and defaults to 1 otherwise; an int-typed non-positive
count makes the expansion range empty, so the record contributes to no
presence count (it is not treated as 1). -/
theorem c2_theorem :
    (∀ r : Record, projNos r =
      (match getField r "number of seasons" with
        | some (BVal.vint n) => BVal.vint n
        | _ => BVal.vint 1)) ∧
    (∀ (r : Record) (Y S : Int),
      getField r "year" = some (BVal.vint Y) →
      getField r "number of seasons" = some (BVal.vint S) →
      S ≤ 0 → int32Min ≤ Y + S → Y ≤ int32Max →
      seasonsYearRange r = Except.ok []) := by
  constructor
  · intro r
    cases hf : getField r "number of seasons" with
    | none =>
        rw [projNos_default (by rw [hf]; decide)]
    | some v =>
        cases v with
        | vint n => rw [projNos_int hf]
        | vlong n => rw [projNos_default (by rw [hf]; simp [bsonTypeOpt, bsonType])]
        | vnull => rw [projNos_default (by rw [hf]; decide)]
        | vstr s => rw [projNos_default (by rw [hf]; simp [bsonTypeOpt, bsonType])]
        | varr xs => rw [projNos_default (by rw [hf]; simp [bsonTypeOpt, bsonType])]
        | vdoc d => rw [projNos_default (by rw [hf]; simp [bsonTypeOpt, bsonType])]
  · intro r Y S hy hs hS hbl hbh
    rw [seasonsYearRange_eval hy (projNos_int hs) (by omega) hbh hbl (by omega)]
    have h0 : S.toNat = 0 := by omega
    rw [h0]
    rfl

/-- C2, witness for the amended theorem at a concrete record. -/
theorem c2_witness :
    seasonsYearRange [("year", BVal.vint 2010), ("number of seasons", BVal.vint 0)] =
      Except.ok [] :=
  c2_theorem.2 [("year", BVal.vint 2010), ("number of seasons", BVal.vint 0)] 2010 0
    (by decide) (by decide) (by decide) (by decide) (by decide)

/-- C3, counterexample: a record whose year is a non-null non-integer
(a string) is not silently skipped: it makes calculate_seasons raise
(the $add of a string year fails server-side), and its credits are
still tallied by calculate_professionals (whose pipeline has no year
filter), so the credit series is not unchanged by the record. -/
theorem c3_counterexample :
    calculateProfessionals [] ["cast"] = Except.ok [] ∧
    calculateSeasons
        [[("year", BVal.vstr "2010"), ("cast", BVal.varr [BVal.vint 1, BVal.vint 2])]] =
      Except.error (PyErr.operationFailure "$add only supports numeric or date types") ∧
    calculateProfessionals
        [[("year", BVal.vstr "2010"), ("cast", BVal.varr [BVal.vint 1, BVal.vint 2])]]
        ["cast"] = Except.ok [2] ∧
    (Except.ok [2] : Except PyErr (List Nat)) ≠ Except.ok ([] : List Nat) := by
  decide

/-- C3, amended: a record whose year field is absent or null contributes
nothing to any of the three outputs (both functions return exactly what
they return without the record); but a record with a present, non-null,
non-integer year is not skipped: it aborts calculate_seasons with an
error and its credits are counted by calculate_professionals. -/
theorem c3_theorem (rs : List Record) (r : Record) (keys : List String)
    (hy : getField r "year" = none ∨ getField r "year" = some BVal.vnull) :
    calculateSeasons (rs ++ [r]) = calculateSeasons rs ∧
    calculateProfessionals (rs ++ [r]) keys = calculateProfessionals rs keys := by
  have hm := matchYearNeNull_of_absent hy
  have hprod : productsPipeline (rs ++ [r]) = productsPipeline rs := by
    unfold productsPipeline
    rw [matchedRecords_append_unmatched _ _ hm]
  have hseas : seasonsPipeline (rs ++ [r]) = seasonsPipeline rs := by
    unfold seasonsPipeline
    rw [matchedRecords_append_unmatched _ _ hm]
  constructor
  · unfold calculateSeasons
    rw [hprod, hseas]
  · have hcounter := professionalsCounter_append_null rs r keys (yearKey_of_absent hy)
    unfold calculateProfessionals
    rw [hcounter]

/-- C3, witness for the amended theorem: appending a year-less record
changes neither output. -/
theorem c3_witness :
    calculateSeasons ([[("year", BVal.vint 2000)]] ++ [[("cast", BVal.varr [BVal.vint 1])]]) =
      calculateSeasons [[("year", BVal.vint 2000)]] ∧
    calculateProfessionals
        ([[("year", BVal.vint 2000)]] ++ [[("cast", BVal.varr [BVal.vint 1])]]) ["cast"] =
      calculateProfessionals [[("year", BVal.vint 2000)]] ["cast"] :=
  c3_theorem [[("year", BVal.vint 2000)]] [("cast", BVal.varr [BVal.vint 1])] ["cast"]
    (Or.inl (by decide))

/-- C4, counterexample: a record with the perfectly valid int year
2147483647 and well-typed season count 1 does not increment any count:
$range needs the exclusive end 2147483648 to be a 32-bit int, so the
whole aggregation raises instead. -/
theorem c4_counterexample :
    calculateSeasons [[("year", BVal.vint 2147483647), ("number of seasons", BVal.vint 1)]] =
      Except.error
        (PyErr.operationFailure "$range requires values representable as 32-bit integers") := by
  decide

/-- C4, amended: for a record with int year Y and int season count
S ≥ 1 whose expansion stays within 32-bit range, appending the record
to any record set on which the seasons pipeline succeeds increments the
presence count by exactly 1 at every year in [Y, Y+S) and at no other
year, and increments the new-series count (pipeline_products) by 1 at
Y only. -/
theorem c4_theorem (pre : List Record) (r : Record) (Y S : Int)
    (hy : getField r "year" = some (BVal.vint Y))
    (hs : getField r "number of seasons" = some (BVal.vint S))
    (hS : 1 ≤ S) (hlo : int32Min ≤ Y) (hhi : Y + S ≤ int32Max)
    (m : List (BVal × Nat)) (hpre : seasonsPipeline pre = Except.ok m) :
    (∃ m2, seasonsPipeline (pre ++ [r]) = Except.ok m2 ∧
      ∀ y : Int, counterGet m2 (BVal.vint y) =
        counterGet m (BVal.vint y) + (if Y ≤ y ∧ y < Y + S then 1 else 0)) ∧
    (∀ y : Int, counterGet (productsPipeline (pre ++ [r])) (BVal.vint y) =
      counterGet (productsPipeline pre) (BVal.vint y) + (if y = Y then 1 else 0)) := by
  have hm := matchYearNeNull_of_vint hy
  have hr := seasonsYearRange_eval hy (projNos_int hs) hlo (by omega) (by omega) hhi
  constructor
  · rcases seasonsPipeline_append_matched pre r hm hpre hr with ⟨m2, hok, hcount⟩
    refine ⟨m2, hok, ?_⟩
    intro y
    rw [hcount (BVal.vint y), map_normKey_rangeList, count_rangeList]
  · intro y
    rw [productsPipeline_append pre r hm (BVal.vint y)]
    have hyk : yearKey r = BVal.vint Y := by unfold yearKey; rw [hy]; rfl
    rw [hyk]
    congr 1
    by_cases hYy : y = Y
    · subst hYy; simp
    · rw [if_neg ?_, if_neg hYy]
      intro hc
      injection hc with h2
      exact hYy h2.symm

/-- C4, witness: a record {year: 2010, seasons: 3} appended after a
record {year: 2005}. -/
theorem c4_witness :
    (∃ m2, seasonsPipeline ([[("year", BVal.vint 2005)]] ++
        [[("year", BVal.vint 2010), ("number of seasons", BVal.vint 3)]]) =
        Except.ok m2 ∧
      ∀ y : Int, counterGet m2 (BVal.vint y) =
        counterGet [(BVal.vint 2005, 1)] (BVal.vint y) +
          (if 2010 ≤ y ∧ y < 2010 + 3 then 1 else 0)) ∧
    (∀ y : Int, counterGet (productsPipeline ([[("year", BVal.vint 2005)]] ++
        [[("year", BVal.vint 2010), ("number of seasons", BVal.vint 3)]])) (BVal.vint y) =
      counterGet (productsPipeline [[("year", BVal.vint 2005)]]) (BVal.vint y) +
        (if y = 2010 then 1 else 0)) :=
  c4_theorem [[("year", BVal.vint 2005)]]
    [("year", BVal.vint 2010), ("number of seasons", BVal.vint 3)]
    2010 3 (by decide) (by decide) (by decide) (by decide) (by decide)
    [(BVal.vint 2005, 1)] (by decide)

/-- C5, counterexample: the expansion does raise for a malformed
record: a present string year passes the null filter and then $add
fails, so the exception reaches the caller of calculate_seasons. -/
theorem c5_counterexample :
    calculateSeasons [[("year", BVal.vstr "abc")]] =
      Except.error (PyErr.operationFailure "$add only supports numeric or date types") := by
  decide

/-- C5, amended: mismatches in the season-count field or in credit
fields never raise - for records whose year is absent, null, or an
in-range int and whose season count is absent or arbitrarily malformed
(not int-typed), with all other fields (including credit fields) of any
shape, both functions return without error; a malformed YEAR, however,
raises (see the counterexample). -/
theorem c5_theorem (records : List Record) (keys : List String)
    (h : ∀ r ∈ records, yearSafe r = true) :
    (∃ out, calculateSeasons records = Except.ok out) ∧
    (∃ cs, calculateProfessionals records keys = Except.ok cs) :=
  ⟨calculateSeasons_safe_ok records h, calculateProfessionals_safe_ok records keys h⟩

/-- C5, witness: a record with a string season count and an int-valued
(non-sequence) credit field raises nothing. -/
theorem c5_witness :
    (∃ out, calculateSeasons
        [[("year", BVal.vint 1999), ("number of seasons", BVal.vstr "x"),
          ("cast", BVal.vint 7)]] = Except.ok out) ∧
    (∃ cs, calculateProfessionals
        [[("year", BVal.vint 1999), ("number of seasons", BVal.vstr "x"),
          ("cast", BVal.vint 7)]] ["cast"] = Except.ok cs) :=
  c5_theorem
    [[("year", BVal.vint 1999), ("number of seasons", BVal.vstr "x"),
      ("cast", BVal.vint 7)]] ["cast"] (by decide)

/-- C6: for a record with int year Y, appending it adds to the credit
totals at Y exactly the sum, over the configured credit fields, of the
field's array length (0 for an absent or non-array value), and adds
nothing at any other year.  (The configuration is assumed
duplicate-free, as the code's sum_fields dict collapses duplicates.) -/
theorem c6_theorem (rs : List Record) (r : Record) (keys : List String) (Y : Int)
    (hy : getField r "year" = some (BVal.vint Y)) (hnd : keys.Nodup) :
    ∀ y : Int, counterGet (professionalsTotals (rs ++ [r]) keys) (BVal.vint y) =
      counterGet (professionalsTotals rs keys) (BVal.vint y) +
        (if y = Y then (keys.map (creditCond r)).sum else 0) := by
  intro y
  rw [professionalsTotals_append]
  have hyk : yearKey r = BVal.vint Y := by unfold yearKey; rw [hy]; rfl
  rw [hyk]
  have hded : keys.dedup = keys := List.dedup_eq_self.mpr hnd
  unfold creditsOf
  rw [hded]
  congr 1
  by_cases hYy : y = Y
  · subst hYy; simp
  · rw [if_neg ?_, if_neg hYy]
    intro hc
    injection hc with h2
    exact hYy h2.symm

/-- C6, witness: the spec's example record {year:2000, cast:[a,b],
writers:[c]} contributes exactly 3 at year 2000. -/
theorem c6_witness :
    counterGet (professionalsTotals ([] ++ [creditRecord]) ["cast", "writers"])
        (BVal.vint 2000) =
      counterGet (professionalsTotals [] ["cast", "writers"]) (BVal.vint 2000) +
        (if (2000 : Int) = 2000 then
          ((["cast", "writers"].map (creditCond creditRecord)).sum) else 0) :=
  c6_theorem [] creditRecord ["cast", "writers"] 2000 (by decide) (by decide) 2000

/-- C7, counterexample: on the end-to-end scenario the year list has
length 3, but the credit list has length 2 - it is aligned to the
credit map's own keys [2010,2012], with no zero inserted at 2011 - so
the four output sequences do not all have the same length. -/
theorem c7_counterexample :
    calculateSeasons endToEndRecords =
      Except.ok ([BVal.vint 2010, BVal.vint 2011, BVal.vint 2012], [2, 0, 1], [2, 1, 2]) ∧
    calculateProfessionals endToEndRecords ["cast"] = Except.ok [0, 2] ∧
    ([0, 2] : List Nat).length ≠
      ([BVal.vint 2010, BVal.vint 2011, BVal.vint 2012] : List BVal).length := by
  decide

/-- C7, amended: whenever calculate_seasons returns, its year list is a
strictly ascending, duplicate-free list of ints (the sorted union of
the presence and new-series keys), and the two count series it returns
are parallel to it; the credit series, computed separately, is aligned
only to the credit map's own keys and need not have the same length
(see the counterexample). -/
theorem c7_theorem (records : List Record) {ys : List BVal} {os ms : List Nat}
    (h : calculateSeasons records = Except.ok (ys, os, ms)) :
    ys.Pairwise (fun u v => bvalLt u v = true) ∧ ys.Nodup ∧
    os.length = ys.length ∧ ms.length = ys.length := by
  rcases calculateSeasons_ok_inv h with ⟨m, hm, hsort, ho, hms⟩
  have hkeys := seasonsPipeline_keys_vint hm
  have hvint : ∀ x ∈ ((productsPipeline records).map Prod.fst ++ m.map Prod.fst).dedup,
      isVintB x = true := by
    intro x hx
    have hx2 := List.mem_dedup.mp hx
    rcases List.mem_append.mp hx2 with h1 | h1
    · rcases hkeys.2 x h1 with ⟨n, hn⟩; rw [hn]; rfl
    · rcases hkeys.1 x h1 with ⟨n, hn⟩; rw [hn]; rfl
  rcases pySorted_int_ok _ hvint (List.nodup_dedup _) with ⟨out, hout, hperm, hpw⟩
  have hoy : out = ys := by
    rw [hout] at hsort
    exact (Except.ok.injEq _ _).mp hsort
  subst hoy
  refine ⟨hpw, (hperm.nodup_iff).mpr (List.nodup_dedup _), ?_, ?_⟩
  · rw [ho, List.length_map]
  · rw [hms, List.length_map]

/-- C7, witness at the end-to-end scenario. -/
theorem c7_witness :
    ([BVal.vint 2010, BVal.vint 2011, BVal.vint 2012] : List BVal).Pairwise
        (fun u v => bvalLt u v = true) ∧
    ([BVal.vint 2010, BVal.vint 2011, BVal.vint 2012] : List BVal).Nodup ∧
    ([2, 0, 1] : List Nat).length =
      ([BVal.vint 2010, BVal.vint 2011, BVal.vint 2012] : List BVal).length ∧
    ([2, 1, 2] : List Nat).length =
      ([BVal.vint 2010, BVal.vint 2011, BVal.vint 2012] : List BVal).length :=
  c7_theorem endToEndRecords (by decide)

theorem padTo_length (n : Nat) (xs : List α) (h : xs.length ≤ n) :
    (padTo n xs).length = n := by
  unfold padTo
  rw [List.length_append, List.length_map, List.length_replicate]
  omega

/-- C8, counterexample: the export pads the short credit list at the
END with the missing marker, so values stay positional: the row whose
Year cell is 2011 carries the professionals value 2, although the
credit total of 2011 is 0 (2 is the total of 2012) - the columns are
misaligned by year. -/
theorem c8_counterexample :
    exportDataToCsv endToEndRecords ["cast"] =
      Except.ok
        { year := [some (BVal.vint 2010), some (BVal.vint 2011), some (BVal.vint 2012)]
          totalSeries := [some 2, some 0, some 1]
          newSeries := [some 2, some 1, some 2]
          professionals := [some 0, some 2, none] } ∧
    counterGet (professionalsCounter endToEndRecords ["cast"]) (BVal.vint 2011) = 0 ∧
    (some 2 : Option Nat) ≠ some 0 := by
  decide

/-- C8, amended: whenever the export succeeds, every one of the four
columns is its full computed list (never truncated) padded on the right
with the missing-value marker up to the common maximum length; the
padding is positional, so row values are NOT those of the year named in
the row when the credit list is shorter (see the counterexample). -/
theorem c8_theorem (records : List Record) (keys : List String) (t : CsvTable)
    (h : exportDataToCsv records keys = Except.ok t) :
    ∃ n ys os ms ps, calculateSeasons records = Except.ok (ys, os, ms) ∧
      calculateProfessionals records keys = Except.ok ps ∧
      ys.length ≤ n ∧ os.length ≤ n ∧ ms.length ≤ n ∧ ps.length ≤ n ∧
      t.year = padTo n ys ∧ t.totalSeries = padTo n os ∧
      t.newSeries = padTo n ms ∧ t.professionals = padTo n ps ∧
      t.year.length = n ∧ t.totalSeries.length = n ∧
      t.newSeries.length = n ∧ t.professionals.length = n := by
  unfold exportDataToCsv at h
  cases hcs : calculateSeasons records with
  | error e => rw [hcs] at h; exact Except.noConfusion h
  | ok res =>
      rw [hcs] at h
      simp only [Except.bind] at h
      cases hcp : calculateProfessionals records keys with
      | error e => rw [hcp] at h; exact Except.noConfusion h
      | ok ps =>
          rw [hcp] at h
          simp only [Except.map] at h
          rcases res with ⟨ys, os, ms⟩
          have h0 := (Except.ok.injEq _ _).mp h
          subst h0
          refine ⟨max (max ys.length os.length) (max ms.length ps.length),
            ys, os, ms, ps, rfl, rfl, ?_, ?_, ?_, ?_, rfl, rfl, rfl, rfl,
            ?_, ?_, ?_, ?_⟩ <;>
            first
              | omega
              | (exact padTo_length _ _ (by omega))

/-- C8, witness at the end-to-end scenario. -/
theorem c8_witness :
    ∃ n ys os ms ps, calculateSeasons endToEndRecords = Except.ok (ys, os, ms) ∧
      calculateProfessionals endToEndRecords ["cast"] = Except.ok ps ∧
      ys.length ≤ n ∧ os.length ≤ n ∧ ms.length ≤ n ∧ ps.length ≤ n ∧
      ({ year := [some (BVal.vint 2010), some (BVal.vint 2011), some (BVal.vint 2012)]
         totalSeries := [some 2, some 0, some 1]
         newSeries := [some 2, some 1, some 2]
         professionals := [some 0, some 2, none] } : CsvTable).year = padTo n ys ∧
      ({ year := [some (BVal.vint 2010), some (BVal.vint 2011), some (BVal.vint 2012)]
         totalSeries := [some 2, some 0, some 1]
         newSeries := [some 2, some 1, some 2]
         professionals := [some 0, some 2, none] } : CsvTable).totalSeries = padTo n os ∧
      ({ year := [some (BVal.vint 2010), some (BVal.vint 2011), some (BVal.vint 2012)]
         totalSeries := [some 2, some 0, some 1]
         newSeries := [some 2, some 1, some 2]
         professionals := [some 0, some 2, none] } : CsvTable).newSeries = padTo n ms ∧
      ({ year := [some (BVal.vint 2010), some (BVal.vint 2011), some (BVal.vint 2012)]
         totalSeries := [some 2, some 0, some 1]
         newSeries := [some 2, some 1, some 2]
         professionals := [some 0, some 2, none] } : CsvTable).professionals = padTo n ps ∧
      ({ year := [some (BVal.vint 2010), some (BVal.vint 2011), some (BVal.vint 2012)]
         totalSeries := [some 2, some 0, some 1]
         newSeries := [some 2, some 1, some 2]
         professionals := [some 0, some 2, none] } : CsvTable).year.length = n ∧
      ({ year := [some (BVal.vint 2010), some (BVal.vint 2011), some (BVal.vint 2012)]
         totalSeries := [some 2, some 0, some 1]
         newSeries := [some 2, some 1, some 2]
         professionals := [some 0, some 2, none] } : CsvTable).totalSeries.length = n ∧
      ({ year := [some (BVal.vint 2010), some (BVal.vint 2011), some (BVal.vint 2012)]
         totalSeries := [some 2, some 0, some 1]
         newSeries := [some 2, some 1, some 2]
         professionals := [some 0, some 2, none] } : CsvTable).newSeries.length = n ∧
      ({ year := [some (BVal.vint 2010), some (BVal.vint 2011), some (BVal.vint 2012)]
         totalSeries := [some 2, some 0, some 1]
         newSeries := [some 2, some 1, some 2]
         professionals := [some 0, some 2, none] } : CsvTable).professionals.length = n :=
  c8_theorem endToEndRecords ["cast"]
    { year := [some (BVal.vint 2010), some (BVal.vint 2011), some (BVal.vint 2012)]
      totalSeries := [some 2, some 0, some 1]
      newSeries := [some 2, some 1, some 2]
      professionals := [some 0, some 2, none] } (by decide)

/-- C9: for every session state and configuration, clicking the export
button evaluates the unbound name collection, so the action always
fails with a NameError before any CSV is produced. -/
theorem c9_theorem :
    ∀ (sessionCollection : Option (List Record)) (keys : List String),
      mainExportAction sessionCollection keys =
        Except.error (PyErr.nameError "name collection is not defined") := by
  intro sessionCollection keys
  rfl

/-- C10: get_collection never propagates an exception: on every server
behaviour it returns a value (never an error), and whenever the try
block raises - any of the four named pymongo exceptions or any other
Exception - it returns None. -/
theorem c10_theorem :
    (∀ (sb : ServerBehavior) (dbName collName : String),
      ∃ v, get_collection sb dbName collName = Except.ok v) ∧
    (∀ (e : MongoExc) (dbName collName : String),
      get_collection (ServerBehavior.raises e) dbName collName = Except.ok none) := by
  constructor
  · intro sb d c
    cases sb with
    | raises e =>
        refine ⟨none, ?_⟩
        cases e <;> rfl
    | responds dbs colls coll =>
        by_cases h1 : d ∈ dbs
        · by_cases h2 : c ∈ colls
          · exact ⟨some coll, by simp [get_collection, getCollectionTryBody, h1, h2]⟩
          · exact ⟨none, by simp [get_collection, getCollectionTryBody, h1, h2]⟩
        · exact ⟨none, by simp [get_collection, getCollectionTryBody, h1]⟩
  · intro e d c
    cases e <;> rfl

end MDb
